import Mathlib

/-!
Verification of the numeric-reconstruction and validation core of the
AX-1 Phase 1 repository.

The development shallowly embeds, over `ℚ` and `List Char`:

* `scripts/parse_latex_tables.py` — `clean_latex_number`, the fragment
  reconstruction loop of `parse_time_series_table`, the value loop of
  `parse_spatial_table`, and the dedup/sort step of
  `extract_all_geneve10_tables`;
* `scripts/validate_geneve10_transient.py` — `_closest_row`,
  `_percentage_error` and `run_check`;
* `scripts/validate_simulation.py` — `calculate_metrics`, the
  nearest-time matching and the per-quantity assessment loop of
  `validate_time_evolution`;
* `scripts/validation_analysis.py` — `interpolate_to_common_grid`
  (with models of `np.linspace` and linear `interp1d` with
  extrapolation) and `calculate_errors`.

Python floats are modelled as exact rationals; `np.nan` results are
modelled as `Option.none`, and the single `np.inf` producer
(`_percentage_error`) by the two-constructor type `PyFloat`.
-/

namespace AX1

/-- The characters of a string literal, used to state concrete facts
about the character-level parsing functions. -/
def chrs (s : String) : List Char := s.data

/-! ### Model of Python `float()` on the strings produced by the parser

`pyFloat` accepts the decimal / scientific-notation forms that
`float(...)` accepts and that arise in the scripts: an optional sign, an
integer part and/or a fractional part (at least one digit overall, the
dot optional), and an optional exponent `E`/`e` with optional sign and
mandatory digits.  `none` models a Python `ValueError`. -/

/-- Numeric value of a digit run (most significant first). -/
def digitsToNat (l : List Char) : ℕ :=
  l.foldl (fun a c => a * 10 + (c.toNat - '0'.toNat)) 0

/-- Consume an optional leading sign, returning the sign as `±1`. -/
def parseSign : List Char → ℤ × List Char
  | '-' :: r => (-1, r)
  | '+' :: r => (1, r)
  | l => (1, l)

/-- The syntactic pieces of a parsed decimal/scientific literal. -/
structure FloatParts where
  sign : ℤ
  intPart : ℕ
  fracPart : ℕ
  fracLen : ℕ
  expo : ℤ
deriving DecidableEq

/-- The rational value denoted by a parsed literal. -/
def FloatParts.val (p : FloatParts) : ℚ :=
  (p.sign : ℚ) * ((p.intPart : ℚ) + (p.fracPart : ℚ) / 10 ^ p.fracLen) * 10 ^ p.expo

/-- Exponent part of `float()`: empty, or `E`/`e`, optional sign, digits. -/
def pyFloatExpRaw (sg : ℤ) (ipart fpart : List Char) (rest : List Char) : Option FloatParts :=
  match rest with
  | [] => some ⟨sg, digitsToNat ipart, digitsToNat fpart, fpart.length, 0⟩
  | e :: r =>
    if e = 'e' ∨ e = 'E' then
      let (es, r1) := parseSign r
      let ed := r1.takeWhile Char.isDigit
      let r2 := r1.dropWhile Char.isDigit
      if ed = [] ∨ r2 ≠ [] then none
      else some ⟨sg, digitsToNat ipart, digitsToNat fpart, fpart.length, es * (digitsToNat ed : ℤ)⟩
    else none

/-- Character-level structure of a `float()` literal. -/
def pyFloatRaw (l : List Char) : Option FloatParts :=
  let (sg, l1) := parseSign l
  let ipart := l1.takeWhile Char.isDigit
  let l2 := l1.dropWhile Char.isDigit
  match l2 with
  | '.' :: l3 =>
    let fpart := l3.takeWhile Char.isDigit
    let l4 := l3.dropWhile Char.isDigit
    if ipart = [] ∧ fpart = [] then none
    else pyFloatExpRaw sg ipart fpart l4
  | _ => if ipart = [] then none else pyFloatExpRaw sg ipart [] l2

/-- Model of Python `float(s)` on the numeric strings arising here. -/
def pyFloat (l : List Char) : Option ℚ := (pyFloatRaw l).map FloatParts.val

/-! ### `clean_latex_number` (parse_latex_tables.py, lines 12–43)

The Python function is a pipeline of string rewrites: a `strip`, the
`'-0.'` special case, a bullet-for-dot replacement, three literal
`str.replace` calls for OCR'd exponent groups, three `re.sub` calls that
delete whitespace inside scientific notation, and one `re.sub` that
inserts a missing `+` after the exponent marker.  Each `re.sub` is
embedded as a left-to-right scanner that rewrites every (non-overlapping)
match, resuming after the replaced text, exactly as `re.sub` does; the
scanners are fuelled by the input length, which bounds the number of
emitted characters. -/

/-- Python `str.strip()`. -/
def pyStrip (l : List Char) : List Char :=
  ((l.dropWhile Char.isWhitespace).reverse.dropWhile Char.isWhitespace).reverse

/-- Python `str.replace(pat, sub)` for a non-empty pattern: leftmost,
non-overlapping, resuming after each replacement (fuelled scanner). -/
def replaceAllGo (pat sub : List Char) : ℕ → List Char → List Char
  | 0, l => l
  | _ + 1, [] => []
  | fuel + 1, c :: rest =>
    if pat.isPrefixOf (c :: rest) then sub ++ replaceAllGo pat sub fuel ((c :: rest).drop pat.length)
    else c :: replaceAllGo pat sub fuel rest

/-- Python `str.replace(pat, sub)` (non-empty `pat`). -/
def replaceAll (pat sub l : List Char) : List Char := replaceAllGo pat sub l.length l

/-- `re.sub(r'(\d)\s+E\s*([+-]?\d)', r'\1E\2', s)`: try to match
`\s+E\s*[+-]?\d` and return the `[+-]?\d` group plus the rest. -/
def matchGapE (l : List Char) : Option (List Char × List Char) :=
  let ws := l.takeWhile Char.isWhitespace
  let l1 := l.dropWhile Char.isWhitespace
  if ws = [] then none
  else
    match l1 with
    | 'E' :: l2 =>
      let l3 := l2.dropWhile Char.isWhitespace
      match l3 with
      | c :: l4 =>
        if c = '+' ∨ c = '-' then
          match l4 with
          | d :: l5 => if d.isDigit then some ([c, d], l5) else none
          | [] => none
        else if c.isDigit then some ([c], l4) else none
      | [] => none
    | _ => none

/-- Scanner for `re.sub(r'(\d)\s+E\s*([+-]?\d)', r'\1E\2', s)`. -/
def subGapEGo : ℕ → List Char → List Char
  | 0, l => l
  | _ + 1, [] => []
  | fuel + 1, c :: rest =>
    if c.isDigit then
      match matchGapE rest with
      | some (grp, rem) => c :: 'E' :: grp ++ subGapEGo fuel rem
      | none => c :: subGapEGo fuel rest
    else c :: subGapEGo fuel rest

/-- `re.sub(r'E\s+([+-]?\d)', r'E\1', s)`: match `\s+[+-]?\d` after an `E`. -/
def matchSpaceSignDigit (l : List Char) : Option (List Char × List Char) :=
  let ws := l.takeWhile Char.isWhitespace
  let l1 := l.dropWhile Char.isWhitespace
  if ws = [] then none
  else
    match l1 with
    | c :: l2 =>
      if c = '+' ∨ c = '-' then
        match l2 with
        | d :: l3 => if d.isDigit then some ([c, d], l3) else none
        | [] => none
      else if c.isDigit then some ([c], l2) else none
    | [] => none

/-- Scanner for `re.sub(r'E\s+([+-]?\d)', r'E\1', s)`. -/
def subESpaceGo : ℕ → List Char → List Char
  | 0, l => l
  | _ + 1, [] => []
  | fuel + 1, c :: rest =>
    if c = 'E' then
      match matchSpaceSignDigit rest with
      | some (grp, rem) => c :: grp ++ subESpaceGo fuel rem
      | none => c :: subESpaceGo fuel rest
    else c :: subESpaceGo fuel rest

/-- `re.sub(r'E([+-]?\s+\d)', ..., s)` (whitespace dropped from the
group): match `[+-]?\s+\d` after an `E`. -/
def matchSignSpaceDigit (l : List Char) : Option (List Char × List Char) :=
  match l with
  | c :: l1 =>
    if c = '+' ∨ c = '-' then
      let ws := l1.takeWhile Char.isWhitespace
      let l2 := l1.dropWhile Char.isWhitespace
      if ws = [] then none
      else match l2 with
        | d :: l3 => if d.isDigit then some ([c, d], l3) else none
        | [] => none
    else
      let ws := l.takeWhile Char.isWhitespace
      let l2 := l.dropWhile Char.isWhitespace
      if ws = [] then none
      else match l2 with
        | d :: l3 => if d.isDigit then some ([d], l3) else none
        | [] => none
  | [] => none

/-- Scanner for `re.sub(r'E([+-]?\s+\d)', lambda m: 'E' + m.group(1).replace(' ', ''), s)`. -/
def subESignSpaceGo : ℕ → List Char → List Char
  | 0, l => l
  | _ + 1, [] => []
  | fuel + 1, c :: rest =>
    if c = 'E' then
      match matchSignSpaceDigit rest with
      | some (grp, rem) => c :: grp ++ subESignSpaceGo fuel rem
      | none => c :: subESignSpaceGo fuel rest
    else c :: subESignSpaceGo fuel rest

/-- Scanner for `re.sub(r'E\s*(\d)', r'E+\1', s)` (insert the missing
positive sign in an exponent). -/
def subEPlusGo : ℕ → List Char → List Char
  | 0, l => l
  | _ + 1, [] => []
  | fuel + 1, c :: rest =>
    if c = 'E' then
      let l1 := rest.dropWhile Char.isWhitespace
      match l1 with
      | d :: l2 =>
        if d.isDigit then c :: '+' :: d :: subEPlusGo fuel l2
        else c :: subEPlusGo fuel rest
      | [] => c :: subEPlusGo fuel rest
    else c :: subEPlusGo fuel rest

/-- `clean_latex_number` (parse_latex_tables.py, lines 12–43). -/
def clean_latex_number (s : List Char) : List Char :=
  let s := pyStrip s
  if s = chrs "-0." then chrs "0.0"
  else
    let s := s.map (fun c => if c = '•' then '.' else c)
    let s := replaceAll (chrs "E Ol") (chrs "E+01") s
    let s := replaceAll (chrs "E OO") (chrs "E+00") s
    let s := replaceAll (chrs "E OI") (chrs "E+01") s
    let s := subGapEGo s.length s
    let s := subESpaceGo s.length s
    let s := subESignSpaceGo s.length s
    subEPlusGo s.length s

/-! ### Fragment reconstruction (parse_latex_tables.py, lines 81–134)

`parse_time_series_reconstruct` is the `while i < len(parts)` loop of
`parse_time_series_table` that turns the `&`-split fragments of one
table line into a list of candidate number strings.  The `try/except`
around the final `else` branch never fires (`clean_latex_number` cannot
raise), so that branch always appends the cleaned fragment. -/

/-- `part.isdigit()` (non-empty, all digits). -/
def isDigits (l : List Char) : Bool := !l.isEmpty && l.all Char.isDigit

/-- `re.match(r'^\d{2}$', s)`. -/
def isTwoDigits (l : List Char) : Bool :=
  match l with
  | [a, b] => a.isDigit && b.isDigit
  | _ => false

/-- `re.match(r'^[+-]?\d{2}$', s)`. -/
def isSignedTwoDigits (l : List Char) : Bool :=
  match l with
  | [a, b] => a.isDigit && b.isDigit
  | [s, a, b] => (s = '+' || s = '-') && a.isDigit && b.isDigit
  | _ => false

/-- `re.match(r'^\d+\.\d+E', s)` (anchored prefix match). -/
def startsNumE (l : List Char) : Bool :=
  let d1 := l.takeWhile Char.isDigit
  let l1 := l.dropWhile Char.isDigit
  match l1 with
  | '.' :: l2 =>
    let d2 := l2.takeWhile Char.isDigit
    let l3 := l2.dropWhile Char.isDigit
    !d1.isEmpty && !d2.isEmpty && l3.head? = some 'E'
  | _ => false

/-- `'E' in part.upper()`. -/
def containsEe (l : List Char) : Bool := l.any (fun c => c = 'E' || c = 'e')

/-- The fragment-reconstruction loop of `parse_time_series_table`
(parse_latex_tables.py, lines 81–129): produces the `reconstructed`
list of candidate number strings.  Fragments are the `&`-split cells of
the line, each already stripped (`[p.strip() for p in line.split('&')]`);
as in the source, the current fragment is stripped again on entry. -/
def reconstructGo : ℕ → List (List Char) → List (List Char)
  | 0, _ => []
  | _ + 1, [] => []
  | fuel + 1, part₀ :: rest =>
    let part := pyStrip part₀
    if part.length ≤ 2 ∧ isDigits part then
      -- 1–2 digit fragment: a split mantissa head, or a bare row index
      match rest with
      | next :: rest2 =>
        if next.head? = some '.' then
          match rest2 with
          | nn :: rest3 =>
            if isTwoDigits (pyStrip nn) then
              clean_latex_number (part ++ next ++ nn) :: reconstructGo fuel rest3
            else clean_latex_number (part ++ next) :: reconstructGo fuel rest2
          | [] => clean_latex_number (part ++ next) :: reconstructGo fuel rest2
        else reconstructGo fuel rest
      | [] => []
    else if part.head? = some '.' ∨ containsEe part then
      -- a number fragment; an immediately following bare 2-digit group is
      -- its exponent, and a missing leading digit is inferred as '2'
      match rest with
      | nn :: rest2 =>
        if isTwoDigits (pyStrip nn) then
          let combined := part ++ nn
          let combined := if combined.head? = some '.' then '2' :: combined else combined
          clean_latex_number combined :: reconstructGo fuel rest2
        else
          let combined := if part.head? = some '.' then '2' :: part else part
          clean_latex_number combined :: reconstructGo fuel rest
      | [] =>
        let combined := if part.head? = some '.' then '2' :: part else part
        [clean_latex_number combined]
    else if startsNumE part then
      match rest with
      | nn :: rest2 =>
        if isSignedTwoDigits (pyStrip nn) then
          clean_latex_number (part ++ nn) :: reconstructGo fuel rest2
        else clean_latex_number part :: reconstructGo fuel rest
      | [] => [clean_latex_number part]
    else clean_latex_number part :: reconstructGo fuel rest

/-- The reconstruction loop on a fragment list (each loop iteration
consumes at least one fragment, so `parts.length` iterations suffice). -/
def parse_time_series_reconstruct (parts : List (List Char)) : List (List Char) :=
  reconstructGo parts.length parts

/-! ### Spatial value loop (parse_latex_tables.py, lines 175–192)

The `while i < len(parts) and len(values) < 6` loop of
`parse_spatial_table`: each fragment is cleaned, an immediately
following bare two-digit fragment is appended as the exponent, and the
result is passed to `float(...)`; a `ValueError` aborts the whole row
(`none`).  `parse_spatial_row` adds the surrounding guards: at least 6
fragments, and exactly 6 parsed values. -/

def spatialValsGo : ℕ → List (List Char) → Option (List ℚ)
  | _, [] => some []
  | 0, _ => some []
  | k + 1, p :: rest =>
    let step : List Char × List (List Char) :=
      match rest with
      | nn :: rest2 =>
        if isTwoDigits (pyStrip nn) then (clean_latex_number p ++ pyStrip nn, rest2)
        else (clean_latex_number p, rest)
      | [] => (clean_latex_number p, [])
    match pyFloat step.1 with
    | none => none
    | some v => (spatialValsGo k step.2).map (v :: ·)

/-- One data row of `parse_spatial_table`: `none` when the row is
skipped (fewer than 6 fragments, or a `float()` failure). -/
def parse_spatial_row (parts : List (List Char)) : Option (List ℚ) :=
  if 6 ≤ parts.length then
    match spatialValsGo 6 parts with
    | none => none
    | some vs => if vs.length = 6 then some vs else none
  else none

/-! ### Dedup and sort (parse_latex_tables.py, lines 255–264)

`extract_all_geneve10_tables` removes duplicate time entries: the key is
`round(row[0], 6)` (Python's banker's rounding to 6 decimal places),
the first occurrence wins, and the surviving rows are sorted ascending
by their (raw) first entry with Python's stable `sorted`. -/

/-- One parsed table row: the time key and the remaining values. -/
structure TimeRow where
  time : ℚ
  vals : List ℚ
deriving DecidableEq

/-- Round half to even, as Python's `round` does at ties. -/
def rndHalfEven (x : ℚ) : ℤ :=
  let n := ⌊x⌋
  let f := x - n
  if f < 1 / 2 then n
  else if 1 / 2 < f then n + 1
  else if n % 2 = 0 then n else n + 1

/-- `round(x, 6)`. -/
def round6 (x : ℚ) : ℚ := (rndHalfEven (x * 10 ^ 6) : ℚ) / 10 ^ 6

/-- The `seen_times` loop: keep a row iff its rounded key is new. -/
def dedupTimeRows (seen : List ℚ) : List TimeRow → List TimeRow
  | [] => []
  | r :: rs =>
    if round6 r.time ∈ seen then dedupTimeRows seen rs
    else r :: dedupTimeRows (round6 r.time :: seen) rs

/-- Sort key of `sorted(unique_time_data, key=lambda x: x[0])`. -/
def timeRowLe (a b : TimeRow) : Prop := a.time ≤ b.time

instance : DecidableRel timeRowLe := fun a b => inferInstanceAs (Decidable (a.time ≤ b.time))

instance : IsTotal TimeRow timeRowLe := ⟨fun a b => le_total a.time b.time⟩

instance : IsTrans TimeRow timeRowLe := ⟨fun _ _ _ h1 h2 => le_trans h1 h2⟩

/-- Dedup-then-sort step of `extract_all_geneve10_tables`. -/
def extract_time_series (rows : List TimeRow) : List TimeRow :=
  List.insertionSort timeRowLe (dedupTimeRows [] rows)

/-! ### Regression check (validate_geneve10_transient.py)

`run_check` filters the reference to `time ≤ limit`, pairs every
remaining reference row with the simulation row of minimal
`|time - t_ref|` (`_closest_row`, pandas `idxmin`: first minimiser
wins), computes `_percentage_error` for the four quantities, and fails
if any error strictly exceeds its tolerance.  `np.inf` (the
`ref == 0` case of `_percentage_error`) is modelled by `PyFloat.inf`,
which is greater than every rational. -/

/-- One row of either CSV: the five columns used by the check. -/
structure TRow where
  time : ℚ
  qp : ℚ
  power : ℚ
  alpha : ℚ
  w : ℚ
deriving DecidableEq

/-- A nonnegative float or `np.inf`. -/
inductive PyFloat where
  | fin (q : ℚ)
  | inf
deriving DecidableEq

/-- `x > tol` for `x` a `PyFloat` and a finite tolerance. -/
def PyFloat.gtQ : PyFloat → ℚ → Bool
  | .fin q, t => decide (t < q)
  | .inf, _ => true

/-- `_percentage_error` (lines 34–37). -/
def percentage_error (sim_val ref_val : ℚ) : PyFloat :=
  if ref_val = 0 then .inf else .fin (|sim_val - ref_val| / |ref_val|)

/-- `_closest_row` (lines 29–31): the first row of minimal
`|time - target|`; `none` only on an empty frame (where pandas raises). -/
def closest_row (target : ℚ) : List TRow → Option TRow
  | [] => none
  | [s] => some s
  | s :: s' :: rest =>
    match closest_row target (s' :: rest) with
    | some m => if |s.time - target| ≤ |m.time - target| then some s else some m
    | none => some s

/-- One row of the comparison summary.  The summary's display columns
(sim/ref values, errors scaled by 100) are omitted; each `*Err` field
holds the fractional error that the pass test uses. -/
structure CompRow where
  time : ℚ
  qpErr : PyFloat
  powerErr : PyFloat
  alphaErr : PyFloat
  wErr : PyFloat
deriving DecidableEq

/-- The four per-row error entries of `run_check`. -/
def mkCompRow (r s : TRow) : CompRow :=
  ⟨r.time, percentage_error s.qp r.qp, percentage_error s.power r.power,
    percentage_error s.alpha r.alpha, percentage_error s.w r.w⟩

/-- The per-row failure test of `run_check` (lines 85–91). -/
def rowFails (qpTol powerTol alphaTol wTol : ℚ) (c : CompRow) : Bool :=
  c.qpErr.gtQ qpTol || c.powerErr.gtQ powerTol || c.alphaErr.gtQ alphaTol || c.wErr.gtQ wTol

/-- `run_check` (lines 40–94), on already-loaded rows: the aggregate
`passed` flag and the comparison summary.  An empty simulation frame
(where `idxmin` raises in the source) contributes no row. -/
def run_check (sim ref : List TRow) (time_limit qpTol powerTol alphaTol wTol : ℚ) :
    Bool × List CompRow :=
  let refF := ref.filter (fun r => decide (r.time ≤ time_limit))
  let rows := refF.filterMap (fun r => (closest_row r.time sim).map (mkCompRow r))
  (rows.foldl (fun acc c => if rowFails qpTol powerTol alphaTol wTol c then false else acc) true,
    rows)

/-! ### CSV loading with coercion (validate_geneve10_transient.py, lines 52–56)

The simulation CSV is read, every cell is passed through
`pd.to_numeric(errors="coerce")` (non-numeric text becomes NaN), and
rows with a NaN in any of the five required columns are dropped. -/

/-- One raw CSV row: the text of the five required cells. -/
structure RawSimRow where
  time : List Char
  qp : List Char
  power : List Char
  alpha : List Char
  w : List Char
deriving DecidableEq

/-- `pd.to_numeric(errors="coerce")` on one cell (`none` = NaN). -/
def to_numeric (s : List Char) : Option ℚ := pyFloat (pyStrip s)

/-- Coerce one raw row; `none` iff a required cell is non-numeric,
in which case `dropna` removes the row. -/
def rowToSim (r : RawSimRow) : Option TRow :=
  match to_numeric r.time, to_numeric r.qp, to_numeric r.power, to_numeric r.alpha,
      to_numeric r.w with
  | some t, some q, some p, some a, some w => some ⟨t, q, p, a, w⟩
  | _, _, _, _, _ => none

/-- The load of lines 52–56: coerce then `dropna` on the required columns. -/
def load_sim_rows (rows : List RawSimRow) : List TRow := rows.filterMap rowToSim

/-- `run_check` reading its simulation input from raw CSV rows. -/
def run_check_raw (simRaw : List RawSimRow) (ref : List TRow)
    (time_limit qpTol powerTol alphaTol wTol : ℚ) : Bool × List CompRow :=
  run_check (load_sim_rows simRaw) ref time_limit qpTol powerTol alphaTol wTol

/-! ### Time-evolution validation (validate_simulation.py)

`validate_time_evolution` pairs each reference row with the closest
simulation time (lines 68–81), skipping pairs farther than the fixed
0.1 μsec tolerance, and then assesses each quantity's maximum relative
error against its threshold (lines 121–144): `EXCELLENT` up to the
threshold, `GOOD` up to twice it, and `all_pass` is cleared exactly in
the `ACCEPTABLE`/`NEEDS WORK` branches. -/

/-- The nearest-time matching (lines 68–81): the retained
(reference, simulation) pairs.  The tolerance is the hard-coded 0.1. -/
def validate_match (ref sim : List TRow) : List (TRow × TRow) :=
  ref.filterMap (fun r =>
    match closest_row r.time sim with
    | none => none
    | some s => if 1 / 10 < |s.time - r.time| then none else some (r, s))

/-- The four per-quantity status strings of lines 133–142. -/
inductive Assessment where
  | excellent
  | good
  | acceptable
  | needsWork
deriving DecidableEq

/-- Status of one quantity given its max error and threshold. -/
def assess (maxErr threshold : ℚ) : Assessment :=
  if maxErr ≤ threshold then .excellent
  else if maxErr ≤ threshold * 2 then .good
  else if maxErr ≤ threshold * 5 then .acceptable
  else .needsWork

/-- Whether the branch taken for this quantity clears `all_pass`. -/
def quantityFails (maxErr threshold : ℚ) : Bool :=
  match assess maxErr threshold with
  | .excellent => false
  | .good => false
  | .acceptable => true
  | .needsWork => true

/-- The `all_pass` accumulation over the (max error, threshold) pairs
of the quantity table (lines 127–144). -/
def all_pass_fold (qs : List (ℚ × ℚ)) : Bool :=
  qs.foldl (fun acc q => if quantityFails q.1 q.2 then false else acc) true

/-- `calculate_metrics` (validate_simulation.py, lines 13–38).  Cells
are `Option ℚ` (`none` = non-finite); the mask keeps finite pairs with
`ref != 0`.  `rms_error` is reported by its square (the source takes a
real square root); NaN outputs are `none`. -/
structure Metrics where
  max_abs_error : Option ℚ
  max_rel_error : Option ℚ
  rms_error_sq : Option ℚ
  mean_rel_error : Option ℚ
  points_compared : ℕ
deriving DecidableEq

/-- Arithmetic mean (0 on the empty list, which never occurs here). -/
def qMean (l : List ℚ) : ℚ := l.sum / l.length

/-- `np.max` on a non-empty list. -/
def qMax : List ℚ → ℚ
  | [] => 0
  | x :: xs => xs.foldl max x

/-- The mask `np.isfinite(ref) & np.isfinite(sim) & (ref != 0)`. -/
def metricsMask (pairs : List (Option ℚ × Option ℚ)) : List (ℚ × ℚ) :=
  pairs.filterMap (fun p =>
    match p with
    | (some r, some s) => if r = 0 then none else some (r, s)
    | _ => none)

/-- `calculate_metrics` on (reference, simulation) cell pairs.  The
source's `* 100` percentage scaling is kept. -/
def calculate_metrics (pairs : List (Option ℚ × Option ℚ)) : Metrics :=
  let m := metricsMask pairs
  if m.length = 0 then ⟨none, none, none, none, 0⟩
  else
    let absErr := m.map (fun p => |p.2 - p.1|)
    let relErr := m.map (fun p => |p.2 - p.1| / |p.1|)
    ⟨some (qMax absErr), some (qMax relErr * 100), some (qMean (absErr.map (· ^ 2))),
      some (qMean relErr * 100), m.length⟩

/-! ### Common-grid interpolation (validation_analysis.py, lines 125–165)

`interpolate_to_common_grid` spans the overlap
`[max(min ref, min sim), min(max ref, max sim)]` with
`np.linspace(…, min(len(ref), len(sim), 100))` and linearly
interpolates every numeric column (reference: all of them; simulation:
only the columns that also occur in the reference) with
`fill_value='extrapolate'`. -/

/-- A data frame: the independent column and the named value columns. -/
structure DFrame where
  x : List ℚ
  cols : List (List Char × List ℚ)
deriving DecidableEq

/-- Minimum of a non-empty list (`0` on `[]`, where pandas gives NaN). -/
def listMin : List ℚ → ℚ
  | [] => 0
  | x :: xs => xs.foldl min x

/-- Maximum of a non-empty list (`0` on `[]`). -/
def listMax : List ℚ → ℚ
  | [] => 0
  | x :: xs => xs.foldl max x

/-- `np.linspace a b n`. -/
def linspace (a b : ℚ) (n : ℕ) : List ℚ :=
  if n ≤ 1 then (List.range n).map (fun _ => a)
  else (List.range n).map (fun i : ℕ => a + (b - a) * (i : ℚ) / ((n : ℚ) - 1))

/-- The value at `q` of the segment through `p₀` and `p₁`. -/
def segmentAt (p₀ p₁ : ℚ × ℚ) (q : ℚ) : ℚ :=
  p₀.2 + (p₁.2 - p₀.2) * (q - p₀.1) / (p₁.1 - p₀.1)

/-- `scipy.interpolate.interp1d(…, kind='linear',
fill_value='extrapolate')` evaluated at `q`, for nodes with ascending
keys: queries beyond either end extrapolate the outermost segment. -/
def interp1d : List (ℚ × ℚ) → ℚ → ℚ
  | [], _ => 0
  | [p], _ => p.2
  | [p₀, p₁], q => segmentAt p₀ p₁ q
  | p₀ :: p₁ :: p₂ :: ps, q =>
    if q ≤ p₁.1 then segmentAt p₀ p₁ q else interp1d (p₁ :: p₂ :: ps) q

/-- Lower end of the overlap of the two key ranges. -/
def overlapLo (r s : DFrame) : ℚ := max (listMin r.x) (listMin s.x)

/-- Upper end of the overlap of the two key ranges. -/
def overlapHi (r s : DFrame) : ℚ := min (listMax r.x) (listMax s.x)

/-- Number of common grid points: `min(len(ref), len(sim), 100)`. -/
def gridSize (r s : DFrame) : ℕ := min (min r.x.length s.x.length) 100

/-- `interpolate_to_common_grid` (lines 125–165). -/
def interpolate_to_common_grid (r s : DFrame) : DFrame × DFrame :=
  let grid := linspace (overlapLo r s) (overlapHi r s) (gridSize r s)
  (⟨grid, r.cols.map (fun c => (c.1, grid.map (interp1d (r.x.zip c.2))))⟩,
    ⟨grid, (s.cols.filter (fun c => (r.cols.map Prod.fst).contains c.1)).map
      (fun c => (c.1, grid.map (interp1d (s.x.zip c.2))))⟩)

/-! ### Error metrics (validation_analysis.py, lines 167–220)

`calculate_errors` for one column: mask to `|ref| > 1e-10`, then mean
and max relative error, RMS (reported by its square) and max absolute
error and the two means; with an empty mask the four error statistics
are NaN (`none`) and the two means are `0.0`. -/

structure ErrM where
  mean_relative_error : Option ℚ
  max_relative_error : Option ℚ
  rms_error_sq : Option ℚ
  max_absolute_error : Option ℚ
  mean_reference : ℚ
  mean_simulation : ℚ
deriving DecidableEq

/-- The near-zero floor `1e-10`. -/
def nearZeroFloor : ℚ := 1 / 10 ^ 10

/-- The mask `np.abs(ref_vals) > 1e-10`. -/
def errMask (pairs : List (ℚ × ℚ)) : List (ℚ × ℚ) :=
  pairs.filter (fun p => decide (nearZeroFloor < |p.1|))

/-- The metric block computed from the masked samples. -/
def errFromMasked (m : List (ℚ × ℚ)) : ErrM :=
  if m.length = 0 then ⟨none, none, none, none, 0, 0⟩
  else
    let relErr := m.map (fun p => |(p.2 - p.1) / p.1|)
    let absDiff := m.map (fun p => p.2 - p.1)
    ⟨some (qMean relErr), some (qMax relErr), some (qMean (absDiff.map (· ^ 2))),
      some (qMax (absDiff.map (|·|))), qMean (m.map Prod.fst), qMean (m.map Prod.snd)⟩

/-- `calculate_errors` for one shared column, on (reference, simulation)
sample pairs from the common grid. -/
def calculate_errors (pairs : List (ℚ × ℚ)) : ErrM := errFromMasked (errMask pairs)

/-! ### Helper lemmas -/

/-- A fold that only ever clears its boolean accumulator computes the
conjunction of the accumulator with `all`. -/
lemma foldl_clear {α : Type} (p : α → Bool) :
    ∀ (l : List α) (acc : Bool),
      l.foldl (fun a x => if p x then false else a) acc = (acc && l.all (fun x => !p x)) := by
  intro l
  induction l with
  | nil => intro acc; simp
  | cons x xs ih =>
    intro acc
    rw [List.foldl_cons, ih, List.all_cons]
    cases hp : p x <;> simp [hp, Bool.and_assoc]

lemma closest_row_isSome :
    ∀ (l : List TRow), l ≠ [] → ∀ t : ℚ, (closest_row t l).isSome = true
  | [], h, _ => absurd rfl h
  | [a], _, t => by simp [closest_row]
  | a :: b :: rest, _, t => by
    have ih := closest_row_isSome (b :: rest) (by simp) t
    rcases hm : closest_row t (b :: rest) with _ | m
    · rw [hm] at ih; simp at ih
    · simp only [closest_row, hm]
      split <;> simp

lemma closest_row_mem :
    ∀ (l : List TRow) (t : ℚ) (s : TRow), closest_row t l = some s → s ∈ l
  | [], _, _, h => by simp [closest_row] at h
  | [a], t, s, h => by
    simp only [closest_row, Option.some.injEq] at h
    simp [← h]
  | a :: b :: rest, t, s, h => by
    have ih := closest_row_mem (b :: rest) t
    rcases hm : closest_row t (b :: rest) with _ | m
    · have := closest_row_isSome (b :: rest) (by simp) t
      rw [hm] at this; simp at this
    · simp only [closest_row, hm] at h
      split at h
      · simp at h
        simp [← h]
      · simp at h
        have := ih m hm
        rw [← h]
        exact List.mem_cons_of_mem a this

lemma closest_row_min :
    ∀ (l : List TRow) (t : ℚ) (s : TRow), closest_row t l = some s →
      ∀ s' ∈ l, |s.time - t| ≤ |s'.time - t|
  | [], _, _, h => by simp [closest_row] at h
  | [a], t, s, h => by
    simp only [closest_row, Option.some.injEq] at h
    intro s' hs'
    simp at hs'
    simp [← h, hs']
  | a :: b :: rest, t, s, h => by
    have ih := closest_row_min (b :: rest) t
    rcases hm : closest_row t (b :: rest) with _ | m
    · have := closest_row_isSome (b :: rest) (by simp) t
      rw [hm] at this; simp at this
    · simp only [closest_row, hm] at h
      intro s' hs'
      rcases List.mem_cons.mp hs' with h1 | h1
      · split at h
        · simp at h; rw [← h, h1]
        · simp at h
          rename_i hlt
          push_neg at hlt
          rw [← h, h1]
          exact le_of_lt hlt
      · split at h
        · simp at h
          rename_i hle
          rw [← h]
          exact le_trans hle (ih m hm s' h1)
        · simp at h
          rw [← h]
          exact ih m hm s' h1

/-- A clearing fold starting from `true` ends `false` exactly when some
element trips the guard. -/
lemma foldl_clear_false_iff {α : Type} (p : α → Bool) (l : List α) :
    (l.foldl (fun a x => if p x then false else a) true = false) ↔ ∃ x ∈ l, p x = true := by
  rw [foldl_clear, Bool.true_and, ← Bool.not_eq_true, List.all_eq_true]
  push_neg
  simp

/-- The `passed` flag of `run_check` is cleared exactly when some
comparison row strictly exceeds one of its tolerances. -/
lemma run_check_false_iff (sim ref : List TRow) (limit qt pt alt wt : ℚ) :
    (run_check sim ref limit qt pt alt wt).1 = false ↔
      ∃ c ∈ (run_check sim ref limit qt pt alt wt).2, rowFails qt pt alt wt c = true :=
  foldl_clear_false_iff (rowFails qt pt alt wt) (run_check sim ref limit qt pt alt wt).2

/-- Every reference row under the limit contributes its nearest-match
comparison row to the summary. -/
lemma mem_run_check_rows (sim ref : List TRow) (limit qt pt alt wt : ℚ) (r : TRow)
    (hr : r ∈ ref) (hle : r.time ≤ limit) (s : TRow) (hs : closest_row r.time sim = some s) :
    mkCompRow r s ∈ (run_check sim ref limit qt pt alt wt).2 := by
  unfold run_check
  refine List.mem_filterMap.mpr ⟨r, List.mem_filter.mpr ⟨hr, by simpa using hle⟩, ?_⟩
  rw [hs]
  rfl

/-- With a non-empty simulation frame, the summary has one row per
filtered reference row, in order, carrying the reference times. -/
lemma run_check_rows_times (sim : List TRow) (hsim : sim ≠ []) (ref : List TRow)
    (limit qt pt alt wt : ℚ) :
    ((run_check sim ref limit qt pt alt wt).2).map CompRow.time =
      (ref.filter (fun r => decide (r.time ≤ limit))).map TRow.time := by
  unfold run_check
  induction ref.filter (fun r => decide (r.time ≤ limit)) with
  | nil => rfl
  | cons r l ih =>
    rcases hm : closest_row r.time sim with _ | s
    · have := closest_row_isSome sim hsim r.time
      rw [hm] at this; simp at this
    · simp [List.filterMap_cons, hm, ih, mkCompRow]

lemma mem_dedupTimeRows_not_seen :
    ∀ (l : List TimeRow) (seen : List ℚ) (r : TimeRow),
      r ∈ dedupTimeRows seen l → round6 r.time ∉ seen
  | [], _, _, h => by simp [dedupTimeRows] at h
  | x :: xs, seen, r, h => by
    by_cases hx : round6 x.time ∈ seen
    · rw [dedupTimeRows, if_pos hx] at h
      exact mem_dedupTimeRows_not_seen xs seen r h
    · rw [dedupTimeRows, if_neg hx] at h
      rcases List.mem_cons.mp h with h1 | h1
      · rw [h1]; exact hx
      · have := mem_dedupTimeRows_not_seen xs _ r h1
        exact fun hc => this (List.mem_cons_of_mem _ hc)

lemma pairwise_dedupTimeRows :
    ∀ (l : List TimeRow) (seen : List ℚ),
      (dedupTimeRows seen l).Pairwise (fun a b => round6 a.time ≠ round6 b.time)
  | [], _ => by simp [dedupTimeRows]
  | x :: xs, seen => by
    by_cases hx : round6 x.time ∈ seen
    · rw [dedupTimeRows, if_pos hx]
      exact pairwise_dedupTimeRows xs seen
    · rw [dedupTimeRows, if_neg hx]
      refine List.Pairwise.cons ?_ (pairwise_dedupTimeRows xs _)
      intro b hb
      have := mem_dedupTimeRows_not_seen xs _ b hb
      intro hc
      exact this (hc ▸ List.mem_cons_self _ _)

lemma quantityFails_iff (m t : ℚ) (h : 0 ≤ t) :
    quantityFails m t = true ↔ t * 2 < m := by
  unfold quantityFails assess
  split_ifs with h1 h2 h3 <;> simp <;> linarith

lemma all_pass_fold_aux :
    ∀ (qs : List (ℚ × ℚ)) (acc : Bool),
      qs.foldl (fun acc q => if quantityFails q.1 q.2 then false else acc) acc =
        (acc && qs.all (fun q => !quantityFails q.1 q.2)) := by
  intro qs
  induction qs with
  | nil => intro acc; simp
  | cons x xs ih =>
    intro acc
    rw [List.foldl_cons, ih, List.all_cons]
    cases hp : quantityFails x.1 x.2 <;> simp [hp, Bool.and_assoc]

lemma all_pass_fold_false_iff' (qs : List (ℚ × ℚ)) :
    all_pass_fold qs = false ↔ ∃ q ∈ qs, quantityFails q.1 q.2 = true := by
  unfold all_pass_fold
  rw [all_pass_fold_aux qs true, Bool.true_and, ← Bool.not_eq_true, List.all_eq_true]
  push_neg
  simp

lemma all_pass_fold_false_iff (qs : List (ℚ × ℚ)) (h : ∀ q ∈ qs, 0 ≤ q.2) :
    all_pass_fold qs = false ↔ ∃ q ∈ qs, q.2 * 2 < q.1 := by
  refine Iff.trans (all_pass_fold_false_iff' qs) ?_
  constructor
  · rintro ⟨q, hq, hf⟩
    exact ⟨q, hq, (quantityFails_iff q.1 q.2 (h q hq)).mp hf⟩
  · rintro ⟨q, hq, hf⟩
    exact ⟨q, hq, (quantityFails_iff q.1 q.2 (h q hq)).mpr hf⟩

lemma linspace_length (a b : ℚ) (n : ℕ) : (linspace a b n).length = n := by
  unfold linspace
  split <;> simp

lemma linspace_sorted (a b : ℚ) (n : ℕ) (hab : a ≤ b) :
    List.Sorted (· ≤ ·) (linspace a b n) := by
  unfold linspace
  split
  · rename_i h
    interval_cases n <;> simp
  · rename_i h
    push_neg at h
    have hn : (1 : ℚ) < (n : ℚ) := by exact_mod_cast h
    refine List.Pairwise.map _ ?_ (List.pairwise_lt_range n)
    intro i j hij
    have h0 : (0 : ℚ) < (n : ℚ) - 1 := by linarith
    have hij' : (i : ℚ) ≤ (j : ℚ) := by exact_mod_cast le_of_lt hij
    have hstep : (b - a) * i / ((n : ℚ) - 1) ≤ (b - a) * j / ((n : ℚ) - 1) := by
      gcongr
      linarith
    linarith

lemma linspace_head (a b : ℚ) (n : ℕ) (h : 1 ≤ n) : (linspace a b n).head? = some a := by
  unfold linspace
  split
  · rw [List.head?_eq_getElem?, List.getElem?_map, List.getElem?_range (by omega)]
    rfl
  · rw [List.head?_eq_getElem?, List.getElem?_map, List.getElem?_range (by omega)]
    simp

lemma linspace_getLast (a b : ℚ) (n : ℕ) (h : 2 ≤ n) :
    (linspace a b n).getLast? = some b := by
  unfold linspace
  rw [if_neg (by omega)]
  have hlen : ((List.range n).map (fun i : ℕ => a + (b - a) * (i : ℚ) / ((n : ℚ) - 1))).length = n := by
    simp
  rw [List.getLast?_eq_getElem?, hlen, List.getElem?_map, List.getElem?_range (by omega)]
  have hne : ((n : ℚ) - 1) ≠ 0 := by
    have : (2 : ℚ) ≤ (n : ℚ) := by exact_mod_cast h
    intro hc; rw [sub_eq_zero] at hc; rw [hc] at this; norm_num at this
  have hcast : ((n - 1 : ℕ) : ℚ) = (n : ℚ) - 1 := by
    have h1 : 1 ≤ n := by omega
    push_cast [h1]
    ring
  simp only [Option.map_some']
  rw [hcast, mul_div_assoc, div_self hne, mul_one]
  norm_num

lemma linspace_const (a : ℚ) (n : ℕ) : linspace a a n = List.replicate n a := by
  unfold linspace
  split
  · refine List.eq_replicate_iff.mpr ⟨by simp, ?_⟩
    intro b hb
    rcases List.mem_map.mp hb with ⟨i, _, hi⟩
    exact hi.symm
  · refine List.eq_replicate_iff.mpr ⟨by simp, ?_⟩
    intro b hb
    rcases List.mem_map.mp hb with ⟨i, _, hi⟩
    rw [← hi]
    simp

lemma interp1d_node :
    ∀ (ps : List (ℚ × ℚ)), ps.Pairwise (fun p q => p.1 < q.1) →
      ∀ p ∈ ps, interp1d ps p.1 = p.2
  | [], _, p, hp => absurd hp (List.not_mem_nil p)
  | [p₀], _, p, hp => by
    simp at hp
    simp [interp1d, hp]
  | [p₀, p₁], h, p, hp => by
    have h01 : p₀.1 < p₁.1 := by
      rcases List.pairwise_cons.mp h with ⟨h1, _⟩
      exact h1 p₁ (by simp)
    have hd : p₁.1 - p₀.1 ≠ 0 := sub_ne_zero.mpr (ne_of_gt h01)
    rcases List.mem_cons.mp hp with hp0 | hp'
    · rw [hp0]
      simp [interp1d, segmentAt, sub_self]
    · rcases List.mem_cons.mp hp' with hp1 | hp2
      · rw [hp1]
        simp only [interp1d, segmentAt]
        rw [mul_div_assoc, div_self hd, mul_one]
        ring
      · simp at hp2
  | p₀ :: p₁ :: p₂ :: ps, h, p, hp => by
    rcases List.pairwise_cons.mp h with ⟨h0, htail⟩
    have h01 : p₀.1 < p₁.1 := h0 p₁ (by simp)
    have hd : p₁.1 - p₀.1 ≠ 0 := sub_ne_zero.mpr (ne_of_gt h01)
    rcases List.pairwise_cons.mp htail with ⟨h1, _⟩
    rcases List.mem_cons.mp hp with hp0 | hp'
    · rw [hp0]
      rw [interp1d, if_pos (le_of_lt h01)]
      simp [segmentAt, sub_self]
    · rcases List.mem_cons.mp hp' with hp1 | hp2
      · rw [hp1]
        rw [interp1d, if_pos (le_refl _)]
        simp only [segmentAt]
        rw [mul_div_assoc, div_self hd, mul_one]
        ring
      · have hgt : p₁.1 < p.1 := h1 p hp2
        rw [interp1d, if_neg (not_le.mpr hgt)]
        exact interp1d_node (p₁ :: p₂ :: ps) htail p hp'

lemma errMask_append_excluded (l : List (ℚ × ℚ)) (p : ℚ × ℚ)
    (h : |p.1| ≤ nearZeroFloor) : errMask (l ++ [p]) = errMask l := by
  unfold errMask
  rw [List.filter_append]
  have : decide (nearZeroFloor < |p.1|) = false := decide_eq_false (not_lt.mpr h)
  simp [this]

lemma mem_errMask (l : List (ℚ × ℚ)) (p : ℚ × ℚ) (h : p ∈ errMask l) :
    nearZeroFloor < |p.1| ∧ p.1 ≠ 0 := by
  have h1 := of_decide_eq_true (List.mem_filter.mp h).2
  refine ⟨h1, ?_⟩
  intro hc
  rw [hc] at h1
  norm_num [nearZeroFloor] at h1

lemma mem_metricsMask (l : List (Option ℚ × Option ℚ)) (p : ℚ × ℚ)
    (h : p ∈ metricsMask l) : p.1 ≠ 0 := by
  rcases List.mem_filterMap.mp h with ⟨a, _, ha⟩
  rcases a with ⟨_ | r, _ | s⟩ <;> simp [metricsMask] at ha
  rcases ha with ⟨hr, hp⟩
  rw [← hp]
  exact hr

lemma metricsMask_length_le (l : List (Option ℚ × Option ℚ)) :
    (metricsMask l).length ≤ l.length :=
  List.length_filterMap_le _ _

lemma calculate_metrics_points (l : List (Option ℚ × Option ℚ)) :
    (calculate_metrics l).points_compared = (metricsMask l).length := by
  by_cases h : (metricsMask l).length = 0 <;> simp [calculate_metrics, h]

lemma rowToSim_none (r : RawSimRow)
    (h : to_numeric r.time = none ∨ to_numeric r.qp = none ∨ to_numeric r.power = none ∨
      to_numeric r.alpha = none ∨ to_numeric r.w = none) : rowToSim r = none := by
  unfold rowToSim
  rcases h1 : to_numeric r.time with _ | t <;>
    rcases h2 : to_numeric r.qp with _ | q <;>
    rcases h3 : to_numeric r.power with _ | p <;>
    rcases h4 : to_numeric r.alpha with _ | a <;>
    rcases h5 : to_numeric r.w with _ | w <;>
    simp_all

lemma rowToSim_some (r : RawSimRow) (t : TRow) (h : rowToSim r = some t) :
    to_numeric r.time = some t.time ∧ to_numeric r.qp = some t.qp ∧
      to_numeric r.power = some t.power ∧ to_numeric r.alpha = some t.alpha ∧
      to_numeric r.w = some t.w := by
  unfold rowToSim at h
  rcases h1 : to_numeric r.time with _ | tv <;>
    rcases h2 : to_numeric r.qp with _ | qv <;>
    rcases h3 : to_numeric r.power with _ | pv <;>
    rcases h4 : to_numeric r.alpha with _ | av <;>
    rcases h5 : to_numeric r.w with _ | wv <;>
    simp_all
  rw [← h]
  exact ⟨rfl, rfl, rfl, rfl, rfl⟩

/-! ### Claim theorems -/

/-- C4: reconstructing the three-fragment sequence `["2", ".400000E",
"02"]` consumes all three fragments — the loop emits the single combined
token `"2.400000E+02"` and nothing else — and that token parses to
exactly 240. -/
theorem three_fragment_reconstruction_240 :
    parse_time_series_reconstruct [chrs "2", chrs ".400000E", chrs "02"] =
      [chrs "2.400000E+02"] ∧
    pyFloat (chrs "2.400000E+02") = some 240 := by
  constructor
  · decide
  · have h : pyFloatRaw (chrs "2.400000E+02") = some ⟨1, 2, 400000, 6, 2⟩ := by decide
    rw [pyFloat, h]
    norm_num [FloatParts.val]

/-- C8: the literal fragment `"-0."` cleans to `"0.0"`, which parses to
`0.0` — never a `ValueError` (`none`). -/
theorem minus_zero_reconstruction :
    clean_latex_number (chrs "-0.") = chrs "0.0" ∧
    pyFloat (clean_latex_number (chrs "-0.")) = some 0 := by
  constructor
  · decide
  · have h : pyFloatRaw (clean_latex_number (chrs "-0.")) = some ⟨1, 0, 0, 1, 0⟩ := by decide
    rw [pyFloat, h]
    norm_num [FloatParts.val]

/-- C7 counterexample: the two-fragment sequence `["1.510078E", "Ol"]`
is *not* reconstructed to 15.10078.  The time-series loop leaves the two
fragments separate (the `Ol` group fails the `^\d{2}$` exponent test and
the `E Ol` normalization never sees the two fragments together), the
first of them fails `float()`, and the spatial loop skips a two-fragment
row outright (fewer than 6 parts). -/
theorem ocr_exponent_two_fragments_cex :
    parse_time_series_reconstruct [chrs "1.510078E", chrs "Ol"] =
      [chrs "1.510078E", chrs "Ol"] ∧
    pyFloat (chrs "1.510078E") = none ∧
    parse_spatial_row [chrs "1.510078E", chrs "Ol"] = none := by
  refine ⟨by decide, by decide, by decide⟩

/-- C7 (amended): the `Ol` exponent-suffix normalization applies within
a single fragment: the fragment `"1.510078E Ol"` cleans to
`"1.510078E+01"`, which parses to 15.10078.  A two-fragment split of
the same text is not rejoined and yields no value. -/
theorem ocr_exponent_single_fragment :
    clean_latex_number (chrs "1.510078E Ol") = chrs "1.510078E+01" ∧
    pyFloat (chrs "1.510078E+01") = some (1510078 / 100000) := by
  constructor
  · decide
  · have h : pyFloatRaw (chrs "1.510078E+01") = some ⟨1, 1, 510078, 6, 1⟩ := by decide
    rw [pyFloat, h]
    norm_num [FloatParts.val]

/-- C5: dataset deduplication keeps exactly one record per (rounded)
key — the first occurrence — and, for every input order, the built
dataset has pairwise-distinct rounded keys and is sorted ascending by
key. -/
theorem dedup_idempotent_sorted :
    (∀ r : TimeRow, extract_time_series [r, r] = [r]) ∧
    (∀ r r' : TimeRow, round6 r.time = round6 r'.time →
      extract_time_series [r, r'] = [r]) ∧
    (∀ rows : List TimeRow,
      (extract_time_series rows).Pairwise (fun a b => round6 a.time ≠ round6 b.time) ∧
      List.Sorted timeRowLe (extract_time_series rows)) := by
  refine ⟨?_, ?_, ?_⟩
  · intro r
    simp [extract_time_series, dedupTimeRows, List.insertionSort]
  · intro r r' h
    simp [extract_time_series, dedupTimeRows, h, List.insertionSort]
  · intro rows
    constructor
    · have hperm := List.perm_insertionSort timeRowLe (dedupTimeRows [] rows)
      exact (hperm.pairwise_iff (fun hne hc => hne hc.symm)).mpr
        (pairwise_dedupTimeRows rows [])
    · exact List.sorted_insertionSort timeRowLe _

/-- C5 witness: the first-occurrence-wins conjunct at two concrete
rows sharing a rounded key. -/
theorem dedup_idempotent_sorted_witness :
    extract_time_series [⟨1, [5]⟩, ⟨1, [7]⟩] = [⟨1, [5]⟩] :=
  dedup_idempotent_sorted.2.1 ⟨1, [5]⟩ ⟨1, [7]⟩ rfl

/-- C1 counterexample: a quantity whose max relative error exactly
meets its threshold (1 vs threshold 1) still yields an aggregate pass:
`all_pass_fold` stays `true`, so "pass is false iff some max error
meets *or exceeds* its threshold" fails at this input. -/
theorem verdict_pass_meets_threshold_cex :
    all_pass_fold [((1 : ℚ), (1 : ℚ))] = true ∧
    ¬(all_pass_fold [((1 : ℚ), (1 : ℚ))] = false ↔
      ∃ q ∈ [((1 : ℚ), (1 : ℚ))], q.2 ≤ q.1) := by
  have h : all_pass_fold [((1 : ℚ), (1 : ℚ))] = true := by
    norm_num [all_pass_fold, quantityFails, assess]
  refine ⟨h, ?_⟩
  rw [h]
  intro hiff
  have := hiff.mpr ⟨(1, 1), by norm_num⟩
  simp at this

/-- C1 (amended): the aggregate pass flag is false iff some quantity
*strictly* exceeds its pass bound — twice its stated threshold in
`validate_time_evolution` (whose per-quantity status is worse than GOOD
exactly for the quantities that fail), and the per-row tolerance in
`run_check` (which fails iff some comparison row strictly exceeds a
tolerance). -/
theorem verdict_aggregate_pass :
    (∀ qs : List (ℚ × ℚ), (∀ q ∈ qs, 0 ≤ q.2) →
      (all_pass_fold qs = false ↔ ∃ q ∈ qs, q.2 * 2 < q.1)) ∧
    (∀ m t : ℚ, 0 ≤ t →
      ((assess m t = .acceptable ∨ assess m t = .needsWork) ↔ t * 2 < m)) ∧
    (∀ (sim ref : List TRow) (limit qt pt alt wt : ℚ),
      (run_check sim ref limit qt pt alt wt).1 = false ↔
        ∃ c ∈ (run_check sim ref limit qt pt alt wt).2, rowFails qt pt alt wt c = true) := by
  refine ⟨all_pass_fold_false_iff, ?_, run_check_false_iff⟩
  intro m t ht
  have hq : (assess m t = .acceptable ∨ assess m t = .needsWork) ↔ quantityFails m t = true := by
    unfold quantityFails
    cases h : assess m t <;> simp
  exact hq.trans (quantityFails_iff m t ht)

/-- C1 witness: the amended biconditionals at concrete inputs. -/
theorem verdict_aggregate_pass_witness :
    (all_pass_fold [((3 : ℚ), (1 : ℚ))] = false ↔
      ∃ q ∈ [((3 : ℚ), (1 : ℚ))], q.2 * 2 < q.1) ∧
    ((assess 3 1 = .acceptable ∨ assess 3 1 = .needsWork) ↔ (1 : ℚ) * 2 < 3) :=
  ⟨verdict_aggregate_pass.1 [(3, 1)] (by norm_num),
    verdict_aggregate_pass.2.1 3 1 (by norm_num)⟩

/-- C10: `_percentage_error` is total — a zero reference value yields
`inf`, not a `ZeroDivisionError` — `inf` strictly exceeds every finite
tolerance, and consequently any compared reference row with a zero
quantity (here QP) makes the regression check fail for all finite
tolerances. -/
theorem percentage_error_total_inf :
    (∀ sv : ℚ, percentage_error sv 0 = PyFloat.inf) ∧
    (∀ tol : ℚ, PyFloat.inf.gtQ tol = true) ∧
    (∀ (sim ref : List TRow) (limit qt pt alt wt : ℚ) (r : TRow),
      sim ≠ [] → r ∈ ref → r.time ≤ limit → r.qp = 0 →
      (run_check sim ref limit qt pt alt wt).1 = false) := by
  refine ⟨fun sv => by simp [percentage_error], fun tol => rfl, ?_⟩
  intro sim ref limit qt pt alt wt r hsim hr hle hqp
  rcases Option.isSome_iff_exists.mp (closest_row_isSome sim hsim r.time) with ⟨s, hs⟩
  rw [run_check_false_iff]
  refine ⟨mkCompRow r s, mem_run_check_rows sim ref limit qt pt alt wt r hr hle s hs, ?_⟩
  simp [rowFails, mkCompRow, hqp, percentage_error, PyFloat.gtQ]

/-- C10 witness: a reference row with QP = 0 fails the check at
concrete tolerances. -/
theorem percentage_error_total_inf_witness :
    (run_check [⟨0, 1, 1, 1, 1⟩] [⟨0, 0, 1, 1, 1⟩] 1 1 1 1 1).1 = false :=
  percentage_error_total_inf.2.2 [⟨0, 1, 1, 1, 1⟩] [⟨0, 0, 1, 1, 1⟩] 1 1 1 1 1
    ⟨0, 0, 1, 1, 1⟩ (by simp) (by simp) (by norm_num) rfl

/-- Reference rows with times 0, 132 and 300 (other columns zero). -/
def exRef : List TRow := [⟨0, 0, 0, 0, 0⟩, ⟨132, 0, 0, 0, 0⟩, ⟨300, 0, 0, 0, 0⟩]

/-- Simulation rows with times 0.05, 131.9 and 500 (other columns zero). -/
def exSim : List TRow := [⟨1 / 20, 0, 0, 0, 0⟩, ⟨1319 / 10, 0, 0, 0, 0⟩, ⟨500, 0, 0, 0, 0⟩]

/-- C2 counterexample: in the regression check (`run_check`), the
nearest-match pairing applies *no* tolerance at all — with reference
keys [0, 132, 300] and simulation keys [0.05, 131.9, 500] the
comparison summary keeps all three reference keys, including 300,
whose nearest simulation key is 168.1 away (far beyond 1.0). -/
theorem nearest_match_tolerance_cex :
    ((run_check exSim exRef 1000 1 1 1 1).2).map CompRow.time = [0, 132, 300] ∧
    closest_row 300 exSim = some ⟨1319 / 10, 0, 0, 0, 0⟩ ∧
    (1 : ℚ) < |(1319 / 10 : ℚ) - 300| := by
  have h3 : |(1319 / 10 : ℚ) - 300| = 1681 / 10 := by
    rw [abs_sub_comm, abs_of_nonneg (by norm_num)]
    norm_num
  refine ⟨?_, ?_, by rw [h3]; norm_num⟩
  · norm_num [run_check, exRef, exSim, List.filter, List.filterMap_cons, closest_row,
      mkCompRow, abs]
  · norm_num [closest_row, exSim, abs]

/-- C2 (amended): `closest_row` always selects a simulation record of
minimal absolute key distance (first minimiser on ties).
`validate_time_evolution` then excludes reference records farther than
its *fixed* tolerance 0.1 (not caller-supplied): on the example keys it
retains 0 and 132 and excludes 300.  `run_check` applies no exclusion:
with a non-empty simulation frame its summary keeps every reference key
under the time limit. -/
theorem nearest_match_selection :
    (∀ (sim : List TRow) (t : ℚ) (s : TRow), closest_row t sim = some s →
      s ∈ sim ∧ ∀ s' ∈ sim, |s.time - t| ≤ |s'.time - t|) ∧
    (validate_match exRef exSim).map (fun p => p.1.time) = [0, 132] ∧
    (∀ (sim ref : List TRow) (limit qt pt alt wt : ℚ), sim ≠ [] →
      ((run_check sim ref limit qt pt alt wt).2).map CompRow.time =
        (ref.filter (fun r => decide (r.time ≤ limit))).map TRow.time) := by
  refine ⟨?_, ?_, ?_⟩
  · intro sim t s hs
    exact ⟨closest_row_mem sim t s hs, closest_row_min sim t s hs⟩
  · norm_num [validate_match, exRef, exSim, List.filterMap_cons, closest_row, abs]
  · intro sim ref limit qt pt alt wt hsim
    exact run_check_rows_times sim hsim ref limit qt pt alt wt

/-- C2 witness: the minimal-distance property at the concrete example
(nearest simulation key to 0 is 0.05), and the no-exclusion property of
`run_check` on the example frames. -/
theorem nearest_match_selection_witness :
    ((⟨1 / 20, 0, 0, 0, 0⟩ : TRow) ∈ exSim ∧
      ∀ s' ∈ exSim, |(⟨1 / 20, 0, 0, 0, 0⟩ : TRow).time - 0| ≤ |s'.time - 0|) ∧
    ((run_check exSim exRef 1000 1 1 1 1).2).map CompRow.time =
      (exRef.filter (fun r => decide (r.time ≤ 1000))).map TRow.time :=
  ⟨nearest_match_selection.1 exSim 0 ⟨1 / 20, 0, 0, 0, 0⟩
      (by norm_num [closest_row, exSim, abs]),
    nearest_match_selection.2.2 exSim exRef 1000 1 1 1 1 (by simp [exSim])⟩

/-- C3 counterexample: a degenerate overlap of zero width does *not*
yield an empty aligned pair — with reference keys [0, 1] and simulation
keys [1, 2] the overlap is the single point 1 and the shared grid is
the two-point list [1, 1]. -/
theorem common_grid_zero_overlap_cex :
    (interpolate_to_common_grid ⟨[0, 1], []⟩ ⟨[1, 2], []⟩).1.x = [1, 1] ∧
    (interpolate_to_common_grid ⟨[0, 1], []⟩ ⟨[1, 2], []⟩).1.x ≠ [] := by
  have h : (interpolate_to_common_grid ⟨[0, 1], []⟩ ⟨[1, 2], []⟩).1.x = [1, 1] := by
    norm_num [interpolate_to_common_grid, overlapLo, overlapHi, gridSize, listMin, listMax,
      linspace, List.range_succ, min_def, max_def]
  exact ⟨h, by rw [h]; simp⟩

/-- C3 (amended): the shared grid has `min(len(ref), len(sim), 100)`
points, both outputs use the same grid, the grid ascends whenever the
overlap is non-degenerate, with at least two points it spans the
overlap exactly (first point `overlapLo`, last point `overlapHi`), a
zero-width overlap yields `M` copies of the overlap point (not an empty
pair), and linear interpolation reproduces each dataset node exactly
(extrapolation is total by construction). -/
theorem common_grid_interpolation :
    (∀ r s : DFrame,
      (interpolate_to_common_grid r s).1.x.length = gridSize r s ∧
      (interpolate_to_common_grid r s).2.x = (interpolate_to_common_grid r s).1.x) ∧
    (∀ r s : DFrame, overlapLo r s ≤ overlapHi r s →
      List.Sorted (· ≤ ·) (interpolate_to_common_grid r s).1.x) ∧
    (∀ r s : DFrame, 1 ≤ gridSize r s →
      (interpolate_to_common_grid r s).1.x.head? = some (overlapLo r s)) ∧
    (∀ r s : DFrame, 2 ≤ gridSize r s →
      (interpolate_to_common_grid r s).1.x.getLast? = some (overlapHi r s)) ∧
    (∀ r s : DFrame, overlapLo r s = overlapHi r s →
      (interpolate_to_common_grid r s).1.x = List.replicate (gridSize r s) (overlapLo r s)) ∧
    (∀ ps : List (ℚ × ℚ), ps.Pairwise (fun p q => p.1 < q.1) →
      ∀ p ∈ ps, interp1d ps p.1 = p.2) := by
  refine ⟨?_, ?_, ?_, ?_, ?_, interp1d_node⟩
  · intro r s
    exact ⟨linspace_length _ _ _, rfl⟩
  · intro r s h
    exact linspace_sorted _ _ _ h
  · intro r s h
    exact linspace_head _ _ _ h
  · intro r s h
    exact linspace_getLast _ _ _ h
  · intro r s h
    have := linspace_const (overlapLo r s) (gridSize r s)
    show linspace (overlapLo r s) (overlapHi r s) (gridSize r s) = _
    rw [← h]
    exact this

/-- C3 witness: the grid properties and node reproduction at concrete
frames. -/
theorem common_grid_interpolation_witness :
    List.Sorted (· ≤ ·) (interpolate_to_common_grid ⟨[0, 2], []⟩ ⟨[1, 3], []⟩).1.x ∧
    (interpolate_to_common_grid ⟨[0, 2], []⟩ ⟨[1, 3], []⟩).1.x.head? =
      some (overlapLo ⟨[0, 2], []⟩ ⟨[1, 3], []⟩) ∧
    (interpolate_to_common_grid ⟨[0, 2], []⟩ ⟨[1, 3], []⟩).1.x.getLast? =
      some (overlapHi ⟨[0, 2], []⟩ ⟨[1, 3], []⟩) ∧
    (interpolate_to_common_grid ⟨[1, 1], []⟩ ⟨[1, 2], []⟩).1.x =
      List.replicate (gridSize ⟨[1, 1], []⟩ ⟨[1, 2], []⟩) (overlapLo ⟨[1, 1], []⟩ ⟨[1, 2], []⟩) ∧
    interp1d [((0 : ℚ), 5), (1, 7)] 0 = 5 := by
  refine ⟨common_grid_interpolation.2.1 _ _ ?_, common_grid_interpolation.2.2.1 _ _ ?_,
    common_grid_interpolation.2.2.2.1 _ _ ?_, common_grid_interpolation.2.2.2.2.1 _ _ ?_,
    common_grid_interpolation.2.2.2.2.2 [((0 : ℚ), 5), (1, 7)] ?_ ((0 : ℚ), 5) (by simp)⟩
  · norm_num [overlapLo, overlapHi, listMin, listMax, min_def, max_def]
  · norm_num [gridSize]
  · norm_num [gridSize]
  · norm_num [overlapLo, overlapHi, listMin, listMax, min_def, max_def]
  · norm_num

/-- C6 counterexample: with no sample passing the floor (reference
value 0), `calculate_errors` reports the error statistics as NaN but
the two means as the *number* `0.0` — not NaN, contradicting "the
metrics (… the two means) are reported as not-a-number values". -/
theorem error_metrics_all_nan_cex :
    (calculate_errors [((0 : ℚ), (5 : ℚ))]).max_relative_error = none ∧
    (calculate_errors [((0 : ℚ), (5 : ℚ))]).mean_reference = 0 ∧
    (calculate_errors [((0 : ℚ), (5 : ℚ))]).mean_simulation = 0 := by
  norm_num [calculate_errors, errMask, errFromMasked, nearZeroFloor, List.filter]

/-- C6 (amended): the metrics are computed only over samples whose
reference magnitude clears the near-zero floor (appending an excluded
sample changes nothing); masked reference values are nonzero, so no
quotient divides by zero; `points_compared` is exactly the masked
sample count (never more than the input count); and when no sample
passes, the four error statistics are NaN (`none`) while the two means
are reported as 0.0 — no error is raised (the functions are total). -/
theorem error_metrics_floor :
    (∀ (l : List (ℚ × ℚ)) (p : ℚ × ℚ), |p.1| ≤ nearZeroFloor →
      calculate_errors (l ++ [p]) = calculate_errors l) ∧
    (∀ (l : List (ℚ × ℚ)) (p : ℚ × ℚ), p ∈ errMask l →
      nearZeroFloor < |p.1| ∧ p.1 ≠ 0) ∧
    (∀ l : List (Option ℚ × Option ℚ),
      (calculate_metrics l).points_compared = (metricsMask l).length ∧
      (metricsMask l).length ≤ l.length) ∧
    (∀ (l : List (Option ℚ × Option ℚ)) (p : ℚ × ℚ), p ∈ metricsMask l → p.1 ≠ 0) ∧
    (∀ l : List (ℚ × ℚ), errMask l = [] →
      calculate_errors l = ⟨none, none, none, none, 0, 0⟩) ∧
    (∀ l : List (Option ℚ × Option ℚ), metricsMask l = [] →
      calculate_metrics l = ⟨none, none, none, none, 0⟩) := by
  refine ⟨?_, mem_errMask, ?_, mem_metricsMask, ?_, ?_⟩
  · intro l p h
    unfold calculate_errors
    rw [errMask_append_excluded l p h]
  · intro l
    exact ⟨calculate_metrics_points l, metricsMask_length_le l⟩
  · intro l h
    unfold calculate_errors
    rw [h]
    simp [errFromMasked]
  · intro l h
    simp [calculate_metrics, h]

/-- C6 witness: the floor behaviour at concrete samples. -/
theorem error_metrics_floor_witness :
    calculate_errors ([((1 : ℚ), (2 : ℚ))] ++ [((0 : ℚ), (9 : ℚ))]) =
      calculate_errors [((1 : ℚ), (2 : ℚ))] ∧
    (nearZeroFloor < |(1 : ℚ)| ∧ (1 : ℚ) ≠ 0) ∧
    calculate_errors [] = ⟨none, none, none, none, 0, 0⟩ ∧
    calculate_metrics [] = ⟨none, none, none, none, 0⟩ := by
  refine ⟨error_metrics_floor.1 [((1 : ℚ), (2 : ℚ))] ((0 : ℚ), (9 : ℚ))
      (by norm_num [nearZeroFloor]),
    error_metrics_floor.2.1 [((1 : ℚ), (2 : ℚ))] ((1 : ℚ), (2 : ℚ)) ?_,
    error_metrics_floor.2.2.2.2.1 [] rfl,
    error_metrics_floor.2.2.2.2.2 [] rfl⟩
  norm_num [errMask, nearZeroFloor, List.filter]

/-- C9: loading the simulation CSV is total — a row with a non-numeric
or missing required entry is coerced to NaN and dropped (load of
`r :: rows` equals load of `rows`), every loaded record comes from a
raw row all of whose required cells parsed, and the regression check
run from raw rows is unaffected by such a bad row. -/
theorem sim_load_total :
    (∀ (rows : List RawSimRow) (r : RawSimRow),
      (to_numeric r.time = none ∨ to_numeric r.qp = none ∨ to_numeric r.power = none ∨
        to_numeric r.alpha = none ∨ to_numeric r.w = none) →
      load_sim_rows (r :: rows) = load_sim_rows rows) ∧
    (∀ (rows : List RawSimRow) (t : TRow), t ∈ load_sim_rows rows →
      ∃ r ∈ rows, to_numeric r.time = some t.time ∧ to_numeric r.qp = some t.qp ∧
        to_numeric r.power = some t.power ∧ to_numeric r.alpha = some t.alpha ∧
        to_numeric r.w = some t.w) ∧
    (∀ (simRaw : List RawSimRow) (r : RawSimRow) (ref : List TRow)
        (limit qt pt alt wt : ℚ),
      (to_numeric r.time = none ∨ to_numeric r.qp = none ∨ to_numeric r.power = none ∨
        to_numeric r.alpha = none ∨ to_numeric r.w = none) →
      run_check_raw (r :: simRaw) ref limit qt pt alt wt =
        run_check_raw simRaw ref limit qt pt alt wt) := by
  have hdrop : ∀ (rows : List RawSimRow) (r : RawSimRow),
      (to_numeric r.time = none ∨ to_numeric r.qp = none ∨ to_numeric r.power = none ∨
        to_numeric r.alpha = none ∨ to_numeric r.w = none) →
      load_sim_rows (r :: rows) = load_sim_rows rows := by
    intro rows r h
    unfold load_sim_rows
    rw [List.filterMap_cons, rowToSim_none r h]
  refine ⟨hdrop, ?_, ?_⟩
  · intro rows t ht
    rcases List.mem_filterMap.mp ht with ⟨r, hr, hsome⟩
    exact ⟨r, hr, rowToSim_some r t hsome⟩
  · intro simRaw r ref limit qt pt alt wt h
    unfold run_check_raw
    rw [hdrop simRaw r h]

/-- C9 witness: a row with a non-numeric time cell is dropped and the
rest of the load is unaffected. -/
theorem sim_load_total_witness :
    load_sim_rows [⟨chrs "abc", chrs "1", chrs "1", chrs "1", chrs "1"⟩] =
      load_sim_rows [] ∧
    run_check_raw [⟨chrs "abc", chrs "1", chrs "1", chrs "1", chrs "1"⟩] [] 1 1 1 1 1 =
      run_check_raw [] [] 1 1 1 1 1 :=
  ⟨sim_load_total.1 [] ⟨chrs "abc", chrs "1", chrs "1", chrs "1", chrs "1"⟩
      (Or.inl (by decide)),
    sim_load_total.2.2 [] ⟨chrs "abc", chrs "1", chrs "1", chrs "1", chrs "1"⟩ [] 1 1 1 1 1
      (Or.inl (by decide))⟩

end AX1
